import Mathlib

/-!
Shallow embedding of the DC Label Generator engine (src/app.py) and
verification of the frozen claims about it.

Modelling conventions:
 - Python numbers (int / float) are modelled over the rationals; a value is
   carried together with its Python runtime type (int vs float) by `PyNum`.
 - Python values that may be None / NaN / strings / numbers are `PyVal`.
 - pandas datetime parsing is external; a created-at value is abstracted by
   `DateVal`, which records whether the value is absent (None/NaN), the empty
   string, parsable (with its formatted display and ISO week), or unparsable.
 - The current time ("now") is threaded as an explicit ISO-week parameter.
-/

namespace DCLabel

/-- Result type of the Python numeric coercion: an int or a float, both
carried as exact rationals. -/
inductive PyNum where
  | int (n : ℤ)
  | dec (q : ℚ)
deriving DecidableEq, Repr

/-- Numeric value of a `PyNum`. -/
def PyNum.toRat : PyNum → ℚ
  | .int n => (n : ℚ)
  | .dec q => q

/-- Python value domain seen by `safe_numeric`: None, NaN, a string, or a
number. -/
inductive PyVal where
  | none
  | nan
  | str (s : String)
  | num (p : PyNum)
deriving DecidableEq

/-- Python `int(...)` truncation toward zero on an exact rational. -/
def pyInt (q : ℚ) : ℤ := if 0 ≤ q then ⌊q⌋ else ⌈q⌉

/-- Narrowing step of `safe_numeric`: `num_val == int(num_val)` followed by
`int(num_val)` on success (src/app.py lines 290-292). -/
def narrowNum (q : ℚ) : PyNum :=
  if (pyInt q : ℚ) = q then .int (pyInt q) else .dec q

/-- Character is an ASCII decimal digit. -/
def isDigitChar (c : Char) : Bool := decide ('0' ≤ c ∧ c ≤ '9')

/-- Value of a digit list read in base ten. -/
def digitsVal (cs : List Char) : ℕ :=
  cs.foldl (fun acc c => acc * 10 + (c.toNat - '0'.toNat)) 0

/-- Lower-cased code point of an ASCII character, for case-insensitive
keyword comparison. -/
def lowerNat (c : Char) : ℕ :=
  if 65 ≤ c.toNat ∧ c.toNat ≤ 90 then c.toNat + 32 else c.toNat

/-- Case-insensitive comparison of character lists. -/
def eqKeywordCI (cs kw : List Char) : Bool :=
  decide (cs.map lowerNat = kw.map lowerNat)

/-- Value domain of Python `float(...)`: a finite value (kept exact as a
rational), the two infinities, or NaN. -/
inductive PyFloat where
  | finite (q : ℚ)
  | inf
  | negInf
  | nan
deriving DecidableEq

/-- Exponent suffix of a float literal: empty means exponent zero, otherwise
`e` or `E`, an optional sign, and at least one digit consuming the rest. -/
def parseExp : List Char → Option ℤ
  | [] => some 0
  | e :: r =>
    if e = 'e' ∨ e = 'E' then
      let signAndRest : ℤ × List Char :=
        match r with
        | '-' :: rr => (-1, rr)
        | '+' :: rr => (1, rr)
        | rr => (1, rr)
      let ds := signAndRest.2.takeWhile isDigitChar
      let rest := signAndRest.2.dropWhile isDigitChar
      if ds.isEmpty ∨ ¬ rest.isEmpty then Option.none
      else some (signAndRest.1 * (digitsVal ds : ℤ))
    else Option.none

/-- Models Python builtin `float(...)` on an already stripped string: an
optional sign followed by a case-insensitive infinity or NaN spelling, or a
decimal literal with optional fraction and exponent. Returns `none` exactly
when float() raises ValueError. Finite literals are kept exact as rationals:
binary64 rounding is not modelled, nor is the overflow of astronomically
large literals (such as "1e400") to infinity, which is binary float range
semantics; underscored literals are not modelled either. -/
def parseFloat (s : String) : Option PyFloat :=
  let cs := s.data
  let signAndRest : ℚ × List Char :=
    match cs with
    | '-' :: r => (-1, r)
    | '+' :: r => (1, r)
    | r => (1, r)
  let sign := signAndRest.1
  let cs1 := signAndRest.2
  if eqKeywordCI cs1 ['i', 'n', 'f'] ∨
      eqKeywordCI cs1 ['i', 'n', 'f', 'i', 'n', 'i', 't', 'y'] then
    some (if sign = -1 then PyFloat.negInf else PyFloat.inf)
  else if eqKeywordCI cs1 ['n', 'a', 'n'] then some PyFloat.nan
  else
    let intPart := cs1.takeWhile isDigitChar
    let rest1 := cs1.dropWhile isDigitChar
    let fracAndRest : List Char × List Char :=
      match rest1 with
      | '.' :: fr => (fr.takeWhile isDigitChar, fr.dropWhile isDigitChar)
      | r => ([], r)
    let fracPart := fracAndRest.1
    let rest2 := fracAndRest.2
    if intPart.isEmpty ∧ fracPart.isEmpty then Option.none
    else
      match parseExp rest2 with
      | some e =>
        some (PyFloat.finite (sign *
          ((digitsVal intPart : ℚ) + (digitsVal fracPart : ℚ) / 10 ^ fracPart.length) *
          (10 : ℚ) ^ e))
      | Option.none => Option.none

/-- Python `str.strip()`: drop leading and trailing whitespace. Defined by
structural recursion over the character list so that concrete instances
evaluate inside the kernel. -/
def pyStrip (s : String) : String :=
  String.mk (((s.data.dropWhile Char.isWhitespace).reverse.dropWhile
    Char.isWhitespace).reverse)

/-- Outcome of the source `safe_numeric`: a returned number, or an uncaught
OverflowError escaping the function. -/
inductive SafeNumResult where
  | ok (p : PyNum)
  | overflowError
deriving DecidableEq

/-- Embeds `safe_numeric` (src/app.py lines 276-294) faithfully, including
its failure mode. None/NaN/empty input returns the default; a string is
stripped and passed to float(): a ValueError there is caught and yields the
default; a finite value reaches the narrowing comparison `num_val ==
int(num_val)` and is returned, narrowed to an int when integral; float NaN
makes `int(num_val)` raise ValueError, which the except tuple catches,
yielding the default; an infinity makes `int(num_val)` raise OverflowError,
which the except tuple (ValueError, TypeError, AttributeError) does not
list, so the exception escapes the function. Numeric inputs are finite in
this model; Python ints beyond the binary64 range, where float() itself
overflows, are not modelled. -/
def safe_numeric_checked (value : PyVal) (default : PyNum) : SafeNumResult :=
  match value with
  | .none => .ok default
  | .nan => .ok default
  | .str s =>
    if s = "" then .ok default
    else
      let t := pyStrip s
      if t = "" then .ok default
      else
        match parseFloat t with
        | some (PyFloat.finite q) => .ok (narrowNum q)
        | some PyFloat.nan => .ok default
        | some PyFloat.inf => .overflowError
        | some PyFloat.negInf => .overflowError
        | Option.none => .ok default
  | .num p => .ok (narrowNum p.toRat)

/-- The non-raising projection of `safe_numeric_checked`, used by the label
pipeline: every pipeline call site passes a numeric input, on which the
overflow outcome cannot occur (`safe_numeric_checked_num`), so the overflow
clause of this projection is never reached there. -/
def safe_numeric (value : PyVal) (default : PyNum) : PyNum :=
  match safe_numeric_checked value default with
  | .ok p => p
  | .overflowError => default

/-- Embeds `calculate_case_labels_needed` (src/app.py lines 338-342). -/
def calculate_case_labels_needed (quantity units_per_case : ℚ) : ℤ :=
  if quantity ≤ 0 ∨ units_per_case ≤ 0 then 0
  else ⌈quantity / units_per_case⌉

/-- Embeds the while loop of `calculate_individual_case_quantities`
(src/app.py lines 350-361): while the remainder is positive, emit one full
case and subtract, or emit the final partial remainder. The positivity of
`units_per_case` (guaranteed by the guard in the caller) is carried as a
hypothesis to justify termination. -/
def caseQuantLoop (units_per_case : ℚ) (hu : 0 < units_per_case) (remaining : ℚ) :
    List ℚ :=
  if h0 : remaining ≤ 0 then []
  else if hge : units_per_case ≤ remaining then
    units_per_case :: caseQuantLoop units_per_case hu (remaining - units_per_case)
  else [remaining]
termination_by (⌈remaining / units_per_case⌉).toNat
decreasing_by
  have hr : 0 < remaining := lt_of_not_le h0
  have key : ⌈(remaining - units_per_case) / units_per_case⌉ =
      ⌈remaining / units_per_case⌉ - 1 := by
    rw [sub_div, div_self (ne_of_gt hu), Int.ceil_sub_one]
  have hpos : 0 < ⌈remaining / units_per_case⌉ :=
    Int.ceil_pos.mpr (div_pos hr hu)
  omega

/-- Embeds `calculate_individual_case_quantities` (src/app.py lines 345-361). -/
def calculate_individual_case_quantities (quantity units_per_case : ℚ) : List ℚ :=
  if h : quantity ≤ 0 ∨ units_per_case ≤ 0 then []
  else caseQuantLoop units_per_case (by push_neg at h; exact h.2) quantity


/-- Raster metadata of one weekly symbol, as stored in the `WEEK_ICONS`
catalog of src/app.py: name, pixel width and height, bytes per row, total
bytes, and the pre-encoded hex payload. -/
structure WeekIcon where
  name : String
  width : ℕ
  height : ℕ
  bytes_per_row : ℕ
  total_bytes : ℕ
  hex : String
deriving DecidableEq

/-- Embeds the `WEEK_ICONS` catalog (src/app.py lines 90-235): the 18 named
symbol slots with their raster metadata, accessed by integer key as Python
dict lookup (absent keys give `none`). -/
def WEEK_ICONS : ℤ → Option WeekIcon
  | 1 => some ⟨"house", 40, 40, 5, 200, "00000000000000000000000008000000000C0000000016000000006300000000C18000000180D6000001007E000002007E00000C007E000018007E000030007E000020007E00004000018001800000C00300000020077FFFFF7007FFFFFFF001800000C001800000C001800000C001800000C001800000C001800000C00180FF80C00180C180C00180C080C00180C080C00180C080C00180C080C00180C080C00180C080C00180C080C00180C080C00180C080C001FFFFFFC000FFFFFF800000000000"⟩
  | 2 => some ⟨"sun", 40, 40, 5, 200, "0000000000000000000000000000000000080000000008000000000800000000080000000008004001800800C000400801800020000200001800040000003E040000007F00000000C08000000100400000020020000006001000000C001800000C0018001FCC0019FE000C001800000C001800000400180000020030000001004000000080800000007F800000003F000000180004000020000200004008010000C00800C00180080040000008000000000800000000080000000008000000000800000000000000"⟩
  | 3 => some ⟨"tree", 40, 40, 5, 200, "000000000000000000000000000000000000000000000000000000FF800000030060000007007000000C0008000018000400002000020000400001000040000180004000018001800000C001800000C001800000C001800000C001800000C001800000C000400001800040000180006000030000300002000018000400000CFF98000003FFF0000003FFE0000000FF80000000FF80000000FF80000000FF80000000FF80000000FF80000000FF80000000FF80000000FF80000000FF80000000FF80000000000000"⟩
  | 4 => some ⟨"car", 40, 40, 5, 200, "0000000000000000000000000000000000000000000000000000000000000000000000000000000000000000000000000000000000000000000000000007FFF000000FFFF8000030000600004000018003800000E0030000007004000000100400000010040000001004000000100438000E10043C001E10044200319007FFFFFFF001818060C001810040C000810060C00042003180003C001E00000000000000000000000000000000000000000000000000000000000000000000000000000000000000000000"⟩
  | 5 => some ⟨"cloud", 40, 40, 5, 200, "0000000000000000000000000000000000000000000000000000000000000000000000000003E000000007F0000000180C0000006002000000C00100000EC00180001F80018000613000C00181087E4003010481C003010680C0020107004004010700600400CB01900400C90190040049031004002B02100400190C100300000010030000002001FFFFFFE000FFFFFFE000000000000000000000000000000000000000000000000000000000000000000000000000000000000000000000000000000000000000"⟩
  | 6 => some ⟨"envelope", 40, 40, 5, 200, "000000000000000000000000000000000000000000000000000000000000000000000007FFFFFFF03FFFFFFFFE180000000E3400000016338000006631C00000E6304000010630200002063018000406300C000806300600100630020020063001C0C0063000630006300036000630001C00063000080006300000000630000000063000000006300000000630000000063000000006300000000630000000063FFFFFFFFE1FFFFFFFFC000000000000000000000000000000000000000000000000000000000000"⟩
  | 7 => some ⟨"ladder", 40, 40, 5, 200, "0000000000000000000000200002000020000200002000020000200002000020000200003FFFFE00003FFFFE00002000020000200002000020000200002000020000200002000020000200003FFFFE00003000020000200002000020000200002000020000200002000020000200003FFFFE00003FFFFE00002000020000200002000020000200002000020000200002000020000200003FFFFE00003000020000200002000020000200002000020000200002000020000200002000020000200002000000000000"⟩
  | 8 => some ⟨"key", 40, 40, 5, 200, "00000000000000000000000000000000000000000000000000007E000000008100000001018000000200C000000400600000040060000004007FFFF004007FFFF004006018C004006018C00300C018C001818018C000FF001800007E000800000000000000000000000000000000000000000000000000000000000000000000000000000000000000000000000000000000000000000000000000000000000000000000000000000000000000000000000000000000000000000000000000000000000000000000"⟩
  | 9 => some ⟨"anchor", 40, 40, 5, 200, "0000000000000000000000001C000000003E000000006300000000C880000000C880000000C880000000C9800000006B000000001E000000000800000007FFF0000007FFF80000000800000000080000000008000000000800000000080000000008000000000800000000080000000008000000000800000000080000000008000000000800000000080000040008001004000800100300080020018008004000E00803800060080300001E003C000001FFC0000000000000000000000000000000000000000000"⟩
  | 10 => some ⟨"lightbulb", 40, 40, 5, 200, "0000000000000000000000003E000000007F0000000180C00000020030000004001800000800080000180004000018000400002000020000200002000020000200002000020000200002000020000200001000040000180004000018000C00000C0018000002003000000180C0000001FFC0000001FFC00000010040000001FFC00000010040000001A6C0000001FFC00000010040000001FFC0000000C180000000C080000000C1800000003F000000000000000000000000000000000000000000000000000000"⟩
  | 11 => some ⟨"lock", 40, 40, 5, 200, "000000000000000000000000000000000000000000000000000000FF800000030060000007007000000C0008000018000400002000020000200002000020000200002000020000200002000020000200002000020000FFFFFF8001FFFFFFC001800000C001800000C001800000C001800000C001800000C001801E00C001803F00C001807F00C001807F00C001803F00C001801C00C001800000C001800000C001800000C001800000C001800000C001FFFFFFC00000000000000000000000000000000000000000"⟩
  | 12 => some ⟨"umbrella", 40, 40, 5, 200, "00000000000000000000000000000000000000000000000000000000000000000000000001FFC0000001FFC000001E003C00006000030000800000C0010000006002000000200400000010080000000C080000000C1000000004300000000630000000063FFFFFFFFE00000C000000000800000000080000000008000000000800000000080000000008000000000800000000080000000008000000000800000000080000000008000000010840000001084000000080800000007F800000003F00000000000000"⟩
  | 13 => some ⟨"flag", 40, 40, 5, 200, "0000000000000000000000000000000180000000018000000000C000000001BC00000001BFC000000183E0000001801E0000018003C0000180003E00018000118001800001C00180001E00018001F00001801E00000181FC00000181E0000001BE00000000C00000000180000000018000000001800000000180000000018000000001800000000180000000018000000001800000000180000000018000000001800000000180000000018000000001800000000180000000018000000000800000000000000000"⟩
  | 14 => some ⟨"trashcan", 40, 40, 5, 200, "000000000000000000000000000000000000000000000000000001FFC000000180400000010040000001004000000100400000FFFFFFC0003000030000200002000020000200002000020000210842000021084200002108420000210842000021084200002108420000210842000021084200002108420000210842000021084200002108420000210842000021084200002108420000210842000020000200002000020000200002000020000200003FFFFE000000000000000000000000000000000000000000"⟩
  | 15 => some ⟨"clock", 40, 40, 5, 200, "0000000000000000000000007F80000000FF8000000F0078000018000400006000030000E000038001800800400300080020030008002006000800100C00080018080008000C080008000C080008000C100008000630001C000630001E000630007F000630003FFE0630007F000630003E000630001C00063000000006080000000C080000000C080000000C0800000008040000001003000000200300000020010000004000800000C000600003000018000400000F0078000007FFF0000000FF80000000000000"⟩
  | 16 => some ⟨"mug", 40, 40, 5, 200, "000000000000000000000000000000000000000000000000000000000000000000000000FFFFFE0001FFFFFE00018000020001FFFFFE0001800002000180000300018000038001800002400180000220018000022001800002300180000210018000021001800002100180000210018000021001800002100180000220018000022001800002400180000380018000030001800002000180000200018000020001FFFFFE0000FFFFFE00000000000000000000000000000000000000000000000000000000000000"⟩
  | 17 => some ⟨"book", 40, 40, 5, 200, "0000000000000000000000000000000000000000000000000000FFFFFE00018C0003C0018C0003F0018C000230018C000210018C000210018C000210018C3FC210018C3FC210018C000210018C000210018C000210018C3FC210018C3FC210018C000210018C000210018C000210018C000210018C000210018C000210018C000210018C000210018C000210018C000210018C000210018C000210018C000210018C000210018C000210018C00026001FFFFFF800000000000000000000000000000000000000000"⟩
  | 18 => some ⟨"rabbit", 40, 40, 5, 200, "0000000000000000000000020020000006003000000D0048000018C084000018C084000010410600002063020000206302000020630200002063020000206302000020630200002063020000203F02000019C0C400001380E4000006003000000C00180000180004000018000400001000060000200002000020000200002000020000200002000020000200002000020000180004000018000400000C000800000600100000020020000001C0C00000007F00000000000000000000000000000000000000000000"⟩
  | _ => Option.none

/-- Abstraction of the created-at value handed to the composer and to
`get_week_number`: None/NaN, the empty string, a value pandas parses (carrying
its MM/DD/YYYY display string and its ISO calendar week), or a nonempty value
pandas fails to parse. -/
inductive DateVal where
  | absent
  | emptyStr
  | parsable (display : String) (isoWeek : ℤ)
  | unparsable (raw : String)
deriving DecidableEq

/-- Embeds `get_week_number` (src/app.py lines 368-393): a parsable date maps
its ISO week through the 18-slot cycle, an absent date uses the ISO week of
now in the reference time zone, and a parse failure is caught and defaulted to
slot 1. The ISO week of now is an explicit parameter. -/
def get_week_number (date_value : DateVal) (nowIsoWeek : ℤ) : ℤ :=
  match date_value with
  | .absent => ((nowIsoWeek - 1) % 18) + 1
  | .emptyStr => 1
  | .parsable _ w => ((w - 1) % 18) + 1
  | .unparsable _ => 1

/-- Embeds `get_week_icon_name` (src/app.py lines 396-399). -/
def get_week_icon_name (week_num : ℤ) : String :=
  let w := ((week_num - 1) % 18) + 1
  ((WEEK_ICONS w).map WeekIcon.name).getD "unknown"

/-- Python `str(...)` rendering of an integer. -/
def itos (n : ℤ) : String := toString n

/-- Embeds `generate_week_symbol_zpl` (src/app.py lines 402-425). -/
def generate_week_symbol_zpl (week_num x y : ℤ) : String :=
  let w := ((week_num - 1) % 18) + 1
  match WEEK_ICONS w with
  | Option.none => ""
  | some icon =>
    "^FO" ++ itos x ++ "," ++ itos y ++ "^GFA," ++ toString icon.total_bytes ++
      "," ++ toString icon.total_bytes ++ "," ++ toString icon.bytes_per_row ++
      "," ++ icon.hex ++ "^FS"


/-- Label width in inches (src/app.py line 81). -/
def LABEL_WIDTH : ℚ := 4

/-- Printer resolution in dots per inch (src/app.py line 83). -/
def DPI : ℚ := 203

/-- Week symbol footprint in dots (src/app.py line 86). -/
def WEEK_SYMBOL_SIZE : ℤ := 40

/-- Canvas width in dots: `int(LABEL_WIDTH * DPI)` (src/app.py line 529). -/
def width_dots : ℤ := pyInt (LABEL_WIDTH * DPI)

/-- Usable text width: canvas minus both margins (src/app.py line 557). -/
def text_width : ℤ := width_dots - 20 - 20

/-- Wrap capacity estimate `int(text_width / (font_large * 0.45))` with
`font_large = 32` (src/app.py line 558). -/
def max_chars : ℕ := (pyInt ((text_width : ℚ) / (32 * (45 / 100)))).toNat

/-- Embeds the single-field truncation applied to the brand text (src/app.py
lines 562-563): a string longer than the capacity keeps its first
`maxChars - 3` characters and gains an ellipsis. -/
def truncate_field (maxChars : ℕ) (s : String) : String :=
  if s.length > maxChars then s.take (maxChars - 3) ++ "..." else s

/-- Accumulator loop for `splitWords`: the current word is collected in
reverse and flushed at whitespace or at the end. -/
def splitWordsAux : List Char → List Char → List String
  | [], cur => if cur.isEmpty then [] else [String.mk cur.reverse]
  | ch :: cs, cur =>
    if ch.isWhitespace then
      if cur.isEmpty then splitWordsAux cs []
      else String.mk cur.reverse :: splitWordsAux cs []
    else splitWordsAux cs (ch :: cur)

/-- Python `str.split()` with no argument: split on whitespace runs and drop
empty pieces. -/
def splitWords (s : String) : List String := splitWordsAux s.data []

/-- Embeds the greedy word-wrap loop of `generate_label_zpl` (src/app.py
lines 574-591): accumulate words into the current line while it fits, close
the line on overflow. -/
def wrapLines (maxChars : ℕ) (acc : List String) (currentLine : String) :
    List String → List String
  | [] => if currentLine = "" then acc else acc ++ [currentLine]
  | w :: ws =>
    let testLine := if currentLine = "" then w else currentLine ++ " " ++ w
    if testLine.length ≤ maxChars then wrapLines maxChars acc testLine ws
    else if currentLine = "" then wrapLines maxChars acc w ws
    else wrapLines maxChars (acc ++ [currentLine]) w ws

/-- Embeds the product-name line computation of `generate_label_zpl`
(src/app.py lines 571-598): short strings stay on one line, longer strings are
word-wrapped, lines after the second are discarded, and the kept second line
is truncated when it exceeds `maxChars - 3`. -/
def product_lines_of (maxChars : ℕ) (productDisplay : String) : List String :=
  if productDisplay.length > maxChars then
    let lines := wrapLines maxChars [] "" (splitWords productDisplay)
    if lines.length > 2 then
      match lines.take 2 with
      | [l1, l2] =>
        if l2.length > maxChars - 3 then [l1, l2.take (maxChars - 3) ++ "..."]
        else [l1, l2]
      | other => other
    else lines
  else [productDisplay]

/-- Embeds `sanitize_qr_data` (src/app.py lines 331-335); a None/NaN package
label is modelled as the empty string. -/
def sanitize_qr_data (package_label : String) : String := pyStrip package_label

/-- Display string of a created-at value (src/app.py lines 604-610): absent
and empty values render as nothing, a parsable value renders through
`strftime`, and a caught parse failure falls back to `str(created_date)`. -/
def date_display : DateVal → String
  | .absent => ""
  | .emptyStr => ""
  | .parsable disp _ => disp
  | .unparsable raw => raw

/-- Round to the nearest integer, ties to even, as Python float formatting
does on the exact value. Binary floating-point representation error is not
modelled. -/
def roundHalfEven (q : ℚ) : ℤ :=
  let f := ⌊q⌋
  if q - f < 1 / 2 then f
  else if q - f > 1 / 2 then f + 1
  else if Even f then f else f + 1

/-- Python `format(x, ".1f")` on an exact rational: one digit after the
decimal point, ties to even. -/
def formatFixed1 (q : ℚ) : String :=
  let t := roundHalfEven (q * 10)
  let sign := if t < 0 then "-" else ""
  let n := t.natAbs
  sign ++ toString (n / 10) ++ "." ++ toString (n % 10)

/-- Embeds the case-quantity display logic of `generate_label_zpl`
(src/app.py lines 685-692): a None quantity renders as N/A, an integral
quantity is rendered as an int, anything else with one decimal digit. -/
def case_qty_display (qty : Option PyNum) : String :=
  match qty with
  | some q0 =>
    let qty_num := (safe_numeric (PyVal.num q0) (PyNum.int 0)).toRat
    if (pyInt qty_num : ℚ) = qty_num then "Case Qty: " ++ itos (pyInt qty_num)
    else "Case Qty: " ++ formatFixed1 qty_num
  | Option.none => "Case Qty: N/A"

/-- Python `"\n".join(...)`. -/
def join_nl : List String → String
  | [] => ""
  | [x] => x
  | x :: y :: t => x ++ "\n" ++ join_nl (y :: t)


/-- Embeds `generate_label_zpl` (src/app.py lines 499-701): composes the full
document for one physical label as the newline join of its ZPL instruction
lines, in the fixed order of the source. String fields model NaN as the empty
string; Python floor division is `Int.fdiv`. -/
def generate_label_zpl (product_name brand product_clean batch_no : String)
    (qty : Option PyNum) (package_label category : String)
    (created_date : DateVal) (nowIsoWeek : ℤ) : String :=
  let font_uid : ℤ := 46
  let font_large : ℤ := 32
  let font_large_plus : ℤ := 28
  let font_medium : ℤ := 24
  let font_small_plus : ℤ := 22
  let left_margin : ℤ := 20
  let right_margin : ℤ := 20
  let brand_bar_y : ℤ := 8
  let brand_bar_height : ℤ := 50
  let product_y : ℤ := 70
  let uid_y : ℤ := 180
  let date_y : ℤ := 220
  let bottom_y : ℤ := 360
  let qr_y : ℤ := 120
  let qr_magnification : ℤ := 5
  let qr_box_size : ℤ := qr_magnification * 30
  let qr_x : ℤ := width_dots - qr_box_size - 15
  let brand_display := truncate_field max_chars brand
  let product_display := if product_clean ≠ "" then product_clean else product_name
  let product_lines := product_lines_of max_chars product_display
  let qr_data := sanitize_qr_data package_label
  let created_date_display := date_display created_date
  let week_num := get_week_number created_date nowIsoWeek
  let brand_text_y := brand_bar_y + (brand_bar_height - font_large).fdiv 2
  let line_pitch := pyInt ((font_large : ℚ) * (12 / 10))
  let week_symbol :=
    generate_week_symbol_zpl week_num
      (width_dots.fdiv 2 - WEEK_SYMBOL_SIZE.fdiv 2) (bottom_y - 4)
  let qty_display := case_qty_display qty
  let qty_x := width_dots - right_margin - (qty_display.length : ℤ) * (font_large_plus.fdiv 2)
  let cmds : List String :=
    ["^XA"]
    ++ ["^FO0," ++ itos brand_bar_y ++ "^GB" ++ itos width_dots ++ "," ++
        itos brand_bar_height ++ "," ++ itos brand_bar_height ++ "^FS"]
    ++ (if brand_display ≠ "" then
        ["^FR", "^CF0," ++ itos font_large,
         "^FO" ++ itos left_margin ++ "," ++ itos brand_text_y ++ "^FR^FD" ++
           brand_display ++ "^FS"]
      else [])
    ++ (if category ≠ "" then
        ["^CF0," ++ itos font_medium,
         "^FO" ++ itos (width_dots - right_margin -
             (category.length : ℤ) * (font_medium.fdiv 2)) ++ "," ++
           itos (brand_bar_y + (brand_bar_height - font_medium).fdiv 2) ++
           "^FR^FD" ++ category ++ "^FS"]
      else [])
    ++ (["^CF0," ++ itos font_large]
        ++ product_lines.enum.map (fun p =>
          "^FO" ++ itos left_margin ++ "," ++
            itos (product_y + line_pitch * (p.1 : ℤ)) ++ "^FD" ++ p.2 ++ "^FS"))
    ++ (if qr_data ≠ "" then
        let uid_x0 := left_margin +
          ((qr_x - left_margin - 20) - (qr_data.length : ℤ) * (font_uid.fdiv 2)).fdiv 2
        ["^CF0," ++ itos font_uid,
         "^FO" ++ itos (if uid_x0 < left_margin then left_margin else uid_x0) ++
           "," ++ itos uid_y ++ "^FD" ++ qr_data ++ "^FS"]
      else [])
    ++ (if created_date_display ≠ "" then
        let date_text := "Created: " ++ created_date_display
        let date_x0 := left_margin +
          ((qr_x - left_margin - 20) - (date_text.length : ℤ) * (font_small_plus.fdiv 2)).fdiv 2
        ["^CF0," ++ itos font_small_plus,
         "^FO" ++ itos (if date_x0 < left_margin then left_margin else date_x0) ++
           "," ++ itos date_y ++ "^FD" ++ date_text ++ "^FS"]
      else [])
    ++ (if qr_data ≠ "" then
        ["^FO" ++ itos qr_x ++ "," ++ itos qr_y ++ "^BQN,2," ++
           itos qr_magnification ++ "^FDQA," ++ qr_data ++ "^FS"]
      else [])
    ++ (if batch_no ≠ "" then
        ["^CF0," ++ itos font_large_plus,
         "^FO" ++ itos left_margin ++ "," ++ itos bottom_y ++ "^FDBatch: " ++
           batch_no ++ "^FS"]
      else [])
    ++ (if week_symbol ≠ "" then [week_symbol] else [])
    ++ ["^CF0," ++ itos font_large_plus,
        "^FO" ++ itos qty_x ++ "," ++ itos bottom_y ++ "^FD" ++ qty_display ++ "^FS",
        "^XZ"]
  join_nl cmds


/-- One merged data row as consumed by label generation (the canonical label
record): the columns of the merged frame that `generate_labels_for_row` and
`generate_all_labels` read. `Quantity_Num` and `Units_Per_Case_Num` hold the
already-coerced numerics computed by the merge; `Label Override` is None/NaN
or an integer from the bounded integer UI column. -/
structure Row where
  productName : String
  brand : String
  productClean : String
  packageLabel : String
  batchNo : String
  category : String
  quantityNum : PyNum
  unitsPerCaseNum : PyNum
  createdAtFull : DateVal
  labelOverride : Option ℤ
deriving DecidableEq

/-- The two global generation modes. -/
inductive LabelMode where
  | package
  | case
deriving DecidableEq

/-- Embeds `generate_labels_for_row` (src/app.py lines 704-746). -/
def generate_labels_for_row (r : Row) (label_mode : LabelMode) (nowIsoWeek : ℤ) :
    List String :=
  let quantity := safe_numeric (PyVal.num r.quantityNum) (PyNum.dec 0)
  let units_per_case := safe_numeric (PyVal.num r.unitsPerCaseNum) (PyNum.dec 0)
  let created_date := r.createdAtFull
  if quantity.toRat ≤ 0 then []
  else
    let units_per_case_display : Option PyNum :=
      if 0 < units_per_case.toRat then some units_per_case else Option.none
    match label_mode with
    | .package =>
      [generate_label_zpl r.productName r.brand r.productClean r.batchNo
        units_per_case_display r.packageLabel r.category created_date nowIsoWeek]
    | .case =>
      if 0 < units_per_case.toRat then
        let num_cases := calculate_case_labels_needed quantity.toRat units_per_case.toRat
        List.replicate num_cases.toNat
          (generate_label_zpl r.productName r.brand r.productClean r.batchNo
            (some units_per_case) r.packageLabel r.category created_date nowIsoWeek)
      else []

/-- Embeds the positive-override branch of `generate_all_labels` (src/app.py
lines 765-783): the override count of identical labels, with the
case-size-or-absent quantity. -/
def override_labels (r : Row) (nowIsoWeek : ℤ) (override_count : ℕ) : List String :=
  let units_per_case := safe_numeric (PyVal.num r.unitsPerCaseNum) (PyNum.dec 0)
  let units_per_case_display : Option PyNum :=
    if 0 < units_per_case.toRat then some units_per_case else Option.none
  List.replicate override_count
    (generate_label_zpl r.productName r.brand r.productClean r.batchNo
      units_per_case_display r.packageLabel r.category r.createdAtFull nowIsoWeek)

/-- Per-record dispatch of `generate_all_labels` (src/app.py lines 761-790):
a positive override emits that many labels, an override of zero skips the row,
otherwise the global mode applies. -/
def labels_for_record (r : Row) (label_mode : LabelMode) (nowIsoWeek : ℤ) :
    List String :=
  match r.labelOverride with
  | some o =>
    if 0 < o then override_labels r nowIsoWeek o.toNat
    else if o = 0 then []
    else generate_labels_for_row r label_mode nowIsoWeek
  | Option.none => generate_labels_for_row r label_mode nowIsoWeek

/-- Sort key relation used by the batch generator: ascending package label,
string comparison. -/
def rowKeyLE (a b : Row) : Prop := a.packageLabel ≤ b.packageLabel

instance : DecidableRel rowKeyLE := fun a b =>
  inferInstanceAs (Decidable (a.packageLabel ≤ b.packageLabel))

instance : IsTotal Row rowKeyLE := ⟨fun a b => le_total a.packageLabel b.packageLabel⟩

instance : IsTrans Row rowKeyLE := ⟨fun _ _ _ h1 h2 => le_trans h1 h2⟩

/-- Embeds `generate_all_labels` (src/app.py lines 749-792): rows are sorted
ascending by package label, then each row contributes its labels in order.
The pandas comparison sort is modelled by insertion sort; on the key-distinct
inputs the claims quantify over, every comparison sort by this key produces
the same list. -/
def generate_all_labels (rows : List Row) (label_mode : LabelMode) (nowIsoWeek : ℤ) :
    List String :=
  (List.insertionSort rowKeyLE rows).flatMap
    (fun r => labels_for_record r label_mode nowIsoWeek)

/-- The final batch document: the newline join of all emitted labels
(src/app.py line 1295). -/
def batch_zpl (rows : List Row) (label_mode : LabelMode) (nowIsoWeek : ℤ) : String :=
  join_nl (generate_all_labels rows label_mode nowIsoWeek)

/-- Package identifier of each emitted document, in emission order. -/
def doc_keys (rows : List Row) (label_mode : LabelMode) (nowIsoWeek : ℤ) :
    List String :=
  (List.insertionSort rowKeyLE rows).flatMap
    (fun r => (labels_for_record r label_mode nowIsoWeek).map (fun _ => r.packageLabel))


/-! Concrete records and strings used by witnesses and counterexamples. -/

/-- A record with quantity zero and a positive label override of five. -/
def rowQ0Ov5 : Row :=
  { productName := "Camino - Straw", brand := "Camino", productClean := "Straw",
    packageLabel := "PKG1", batchNo := "B1", category := "Flower",
    quantityNum := PyNum.int 0, unitsPerCaseNum := PyNum.int 25,
    createdAtFull := DateVal.absent, labelOverride := some 5 }

/-- A record with quantity zero and no label override. -/
def rowQ0None : Row :=
  { productName := "Camino - Straw", brand := "Camino", productClean := "Straw",
    packageLabel := "PKG2", batchNo := "B1", category := "Flower",
    quantityNum := PyNum.int 0, unitsPerCaseNum := PyNum.int 25,
    createdAtFull := DateVal.absent, labelOverride := Option.none }

/-- A record with quantity ten, case size twenty-five, override of five. -/
def rowQ10U25Ov5 : Row :=
  { productName := "Camino - Straw", brand := "Camino", productClean := "Straw",
    packageLabel := "PKG3", batchNo := "B1", category := "Flower",
    quantityNum := PyNum.int 10, unitsPerCaseNum := PyNum.int 25,
    createdAtFull := DateVal.absent, labelOverride := some 5 }

/-- A record with quantity ten, case size twenty-five, no override. -/
def rowQ10U25 : Row :=
  { productName := "Camino - Straw", brand := "Camino", productClean := "Straw",
    packageLabel := "PKG4", batchNo := "B1", category := "Flower",
    quantityNum := PyNum.int 10, unitsPerCaseNum := PyNum.int 25,
    createdAtFull := DateVal.absent, labelOverride := Option.none }

/-- The document the package-mode run of `rowQ10U25` composes. -/
def docQ10U25 : String :=
  generate_label_zpl rowQ10U25.productName rowQ10U25.brand rowQ10U25.productClean
    rowQ10U25.batchNo
    (some (safe_numeric (PyVal.num rowQ10U25.unitsPerCaseNum) (PyNum.dec 0)))
    rowQ10U25.packageLabel rowQ10U25.category rowQ10U25.createdAtFull 1

/-- Batch-order witness record with the lexicographically smaller identifier. -/
def rowA001 : Row :=
  { productName := "Alpha - One", brand := "Alpha", productClean := "One",
    packageLabel := "A001", batchNo := "BA", category := "Flower",
    quantityNum := PyNum.int 55, unitsPerCaseNum := PyNum.int 25,
    createdAtFull := DateVal.absent, labelOverride := Option.none }

/-- Batch-order witness record with the lexicographically larger identifier. -/
def rowB002 : Row :=
  { productName := "Beta - Two", brand := "Beta", productClean := "Two",
    packageLabel := "B002", batchNo := "BB", category := "Edible",
    quantityNum := PyNum.int 10, unitsPerCaseNum := PyNum.int 0,
    createdAtFull := DateVal.absent, labelOverride := Option.none }

/-- A word of exactly fifty-three characters: fills one wrapped line at the
engine capacity. -/
def cexW1 : String := "aaaaaaaaaaaaaaaaaaaaaaaaaaaaaaaaaaaaaaaaaaaaaaaaaaaaa"

/-- A word of exactly fifty-one characters: between capacity minus three and
capacity. -/
def cexW2 : String := "bbbbbbbbbbbbbbbbbbbbbbbbbbbbbbbbbbbbbbbbbbbbbbbbbbb"

/-- Product text whose greedy wrap yields three lines whose second line has
fifty-one characters. -/
def cexProduct : String := cexW1 ++ " " ++ cexW2 ++ " cccc"

/-! Helper lemmas. -/

/-- Narrowing preserves the numeric value. -/
theorem narrowNum_toRat (q : ℚ) : (narrowNum q).toRat = q := by
  unfold narrowNum
  split
  · rename_i h
    simpa [PyNum.toRat] using h
  · rfl

/-- A string of length zero is the empty string. -/
theorem eq_empty_of_length_zero (s : String) (h : s.length = 0) : s = "" := by
  cases s with
  | mk data =>
    cases data with
    | nil => rfl
    | cons c cs => simp [String.length] at h

/-- Appending a nonempty string on the right yields a nonempty string. -/
theorem append_ne_empty_of_right (a b : String) (h : b ≠ "") : a ++ b ≠ "" := by
  intro hc
  apply h
  have hl := congrArg String.length hc
  rw [String.length_append] at hl
  exact eq_empty_of_length_zero b (by simpa using Nat.eq_zero_of_add_eq_zero_left hl)

/-- Every slot from one to eighteen is present in the catalog with a real
icon name. -/
theorem WEEK_ICONS_slots (w : ℤ) (h1 : 1 ≤ w) (h2 : w ≤ 18) :
    ∃ i, WEEK_ICONS w = some i ∧ i.name ≠ "unknown" := by
  interval_cases w <;> exact ⟨_, rfl, by decide⟩

/-- C4: `caseLabelsNeeded` returns zero when either argument is nonpositive
and the exact rational ceiling of the quotient otherwise; in particular it
maps (0, 24) to 0, (10, 0) to 0, and (50, 24) to 3. -/
theorem caseLabelsNeeded_spec (q u : ℚ) :
    (q ≤ 0 ∨ u ≤ 0 → calculate_case_labels_needed q u = 0) ∧
    (0 < q → 0 < u → calculate_case_labels_needed q u = ⌈q / u⌉) ∧
    calculate_case_labels_needed 0 24 = 0 ∧
    calculate_case_labels_needed 10 0 = 0 ∧
    calculate_case_labels_needed 50 24 = 3 := by
  refine ⟨fun h => by simp [calculate_case_labels_needed, h], fun hq hu => ?_, ?_, ?_, ?_⟩
  · rw [calculate_case_labels_needed, if_neg]
    push_neg
    exact ⟨hq, hu⟩
  · norm_num [calculate_case_labels_needed]
  · norm_num [calculate_case_labels_needed]
  · rw [calculate_case_labels_needed, if_neg (by norm_num)]
    rw [Int.ceil_eq_iff]
    norm_num

/-- C4 witness: the positive branch evaluated at quantity 50 and case size
24. -/
theorem caseLabelsNeeded_witness :
    calculate_case_labels_needed 50 24 = ⌈(50 : ℚ) / 24⌉ :=
  (caseLabelsNeeded_spec 50 24).2.1 (by norm_num) (by norm_num)

/-- C6 counterexample: on an unparsable date the code returns the constant
slot 1, not the slot of the current ISO week (here 2). -/
theorem weekSlot_unparsable_counterexample :
    get_week_number (DateVal.unparsable "not-a-date") 2 ≠ ((2 - 1) % 18) + 1 := by
  decide

/-- C6 amended: the week slot always lies in [1, 18] and equals
((isoWeek - 1) mod 18) + 1 for a parsable date, the same formula on the
current ISO week for an absent date, and the constant 1 when parsing fails
(unparsable or empty input); on parsable dates it is periodic with period
18. -/
theorem weekSlot_spec (d : DateVal) (nowIsoWeek : ℤ) :
    1 ≤ get_week_number d nowIsoWeek ∧ get_week_number d nowIsoWeek ≤ 18 ∧
    (∀ disp w, get_week_number (DateVal.parsable disp w) nowIsoWeek =
      ((w - 1) % 18) + 1) ∧
    get_week_number DateVal.absent nowIsoWeek = ((nowIsoWeek - 1) % 18) + 1 ∧
    (∀ s, get_week_number (DateVal.unparsable s) nowIsoWeek = 1) ∧
    get_week_number DateVal.emptyStr nowIsoWeek = 1 ∧
    (∀ disp w, get_week_number (DateVal.parsable disp (w + 18)) nowIsoWeek =
      get_week_number (DateVal.parsable disp w) nowIsoWeek) := by
  refine ⟨?_, ?_, fun _ _ => rfl, rfl, fun _ => rfl, rfl, fun disp w => ?_⟩
  · cases d <;> simp [get_week_number] <;> omega
  · cases d <;> simp [get_week_number] <;> omega
  · show ((w + 18 - 1) % 18) + 1 = ((w - 1) % 18) + 1
    omega

/-- C10: both the symbol generator and the icon-name lookup normalize any
integer week number into [1, 18]; every slot is in the catalog, so the
generator never returns the empty string and the lookup never returns the
"unknown" fallback. -/
theorem week_symbol_total (n x y : ℤ) :
    1 ≤ ((n - 1) % 18) + 1 ∧ ((n - 1) % 18) + 1 ≤ 18 ∧
    generate_week_symbol_zpl n x y =
      generate_week_symbol_zpl (((n - 1) % 18) + 1) x y ∧
    get_week_icon_name n = get_week_icon_name (((n - 1) % 18) + 1) ∧
    generate_week_symbol_zpl n x y ≠ "" ∧
    get_week_icon_name n ≠ "unknown" := by
  have hm : ((((n - 1) % 18) + 1 - 1) % 18) + 1 = ((n - 1) % 18) + 1 := by omega
  have h1 : 1 ≤ ((n - 1) % 18) + 1 := by omega
  have h2 : ((n - 1) % 18) + 1 ≤ 18 := by omega
  obtain ⟨i, hi, hname⟩ := WEEK_ICONS_slots _ h1 h2
  refine ⟨h1, h2, ?_, ?_, ?_, ?_⟩
  · unfold generate_week_symbol_zpl
    rw [hm]
  · unfold get_week_icon_name
    rw [hm]
  · simp only [generate_week_symbol_zpl, hi]
    exact append_ne_empty_of_right _ _ (by decide)
  · simp only [get_week_icon_name, hi]
    simpa using hname


/-- Truncation toward zero is the identity on integer casts. -/
theorem pyInt_intCast (n : ℤ) : pyInt (n : ℚ) = n := by
  unfold pyInt
  split <;> simp

/-- Narrowing an integer-valued rational produces the Python int. -/
theorem narrowNum_intCast (n : ℤ) : narrowNum (n : ℚ) = PyNum.int n := by
  unfold narrowNum
  rw [if_pos (by rw [pyInt_intCast]), pyInt_intCast]

/-- Coercing a value that is already numeric preserves its numeric value. -/
theorem safe_numeric_num_toRat (p d : PyNum) :
    (safe_numeric (PyVal.num p) d).toRat = p.toRat := narrowNum_toRat _

/-- On numeric inputs the checked coercion always returns, agreeing with the
non-raising projection. -/
theorem safe_numeric_checked_num (p d : PyNum) :
    safe_numeric_checked (PyVal.num p) d = SafeNumResult.ok (safe_numeric (PyVal.num p) d) :=
  rfl

/-- C8: the source function is not total. An infinity spelling passes
float() and reaches `int(num_val)`, whose OverflowError the except tuple
does not catch, so `safe_numeric` raises where the claim promises the
default. Everywhere else the claimed behavior holds: None, NaN, empty,
unparsable, and float-NaN inputs return the default (the latter through the
caught ValueError of int(nan)), and finite integral literals, including
exponent spellings, are narrowed to ints. -/
theorem safe_numeric_overflow_bug (d : PyNum) :
    safe_numeric_checked (PyVal.str "inf") d = SafeNumResult.overflowError ∧
    safe_numeric_checked (PyVal.str " Infinity ") d = SafeNumResult.overflowError ∧
    safe_numeric_checked (PyVal.str "-inf") d = SafeNumResult.overflowError ∧
    safe_numeric_checked PyVal.none d = SafeNumResult.ok d ∧
    safe_numeric_checked PyVal.nan d = SafeNumResult.ok d ∧
    safe_numeric_checked (PyVal.str "") d = SafeNumResult.ok d ∧
    safe_numeric_checked (PyVal.str "abc") d = SafeNumResult.ok d ∧
    safe_numeric_checked (PyVal.str "nan") d = SafeNumResult.ok d ∧
    safe_numeric_checked (PyVal.str "12.0") d = SafeNumResult.ok (PyNum.int 12) ∧
    safe_numeric_checked (PyVal.str "1e3") d = SafeNumResult.ok (PyNum.int 1000) := by
  refine ⟨rfl, rfl, rfl, rfl, rfl, rfl, rfl, rfl, ?_, ?_⟩
  · have h : safe_numeric_checked (PyVal.str "12.0") d =
        SafeNumResult.ok (narrowNum ((1 : ℚ) *
          (((12 : ℕ) : ℚ) + ((0 : ℕ) : ℚ) / (10 : ℚ) ^ (1 : ℕ)) *
          (10 : ℚ) ^ (0 : ℤ))) := rfl
    have hv : ((1 : ℚ) * (((12 : ℕ) : ℚ) + ((0 : ℕ) : ℚ) / (10 : ℚ) ^ (1 : ℕ)) *
        (10 : ℚ) ^ (0 : ℤ)) = ((12 : ℤ) : ℚ) := by norm_num
    rw [h, hv, narrowNum_intCast]
  · have h : safe_numeric_checked (PyVal.str "1e3") d =
        SafeNumResult.ok (narrowNum ((1 : ℚ) *
          (((1 : ℕ) : ℚ) + ((0 : ℕ) : ℚ) / (10 : ℚ) ^ (0 : ℕ)) *
          (10 : ℚ) ^ ((1 : ℤ) * ((3 : ℕ) : ℤ)))) := rfl
    have hv : ((1 : ℚ) * (((1 : ℕ) : ℚ) + ((0 : ℕ) : ℚ) / (10 : ℚ) ^ (0 : ℕ)) *
        (10 : ℚ) ^ ((1 : ℤ) * ((3 : ℕ) : ℤ))) = ((1000 : ℤ) : ℚ) := by norm_num
    rw [h, hv, narrowNum_intCast]

/-- The split loop returns the empty list on a nonpositive remainder. -/
theorem caseQuantLoop_nonpos (u : ℚ) (hu : 0 < u) (r : ℚ) (h : r ≤ 0) :
    caseQuantLoop u hu r = [] := by
  rw [caseQuantLoop]
  exact dif_pos h

/-- The split loop returns a nonempty list on a positive remainder. -/
theorem caseQuantLoop_ne_nil (u : ℚ) (hu : 0 < u) (r : ℚ) (h : 0 < r) :
    caseQuantLoop u hu r ≠ [] := by
  rw [caseQuantLoop, dif_neg (not_le.mpr h)]
  split <;> simp

/-- One unfolding step of the ceiling measure used by the split loop. -/
theorem ceil_sub_self_div (u : ℚ) (hu : 0 < u) (r : ℚ) :
    ⌈(r - u) / u⌉ = ⌈r / u⌉ - 1 := by
  rw [sub_div, div_self (ne_of_gt hu), Int.ceil_sub_one]

/-- The split loop emits quantities summing exactly to the remainder. -/
theorem caseQuantLoop_sum (u : ℚ) (hu : 0 < u) (r : ℚ) (hr : 0 < r) :
    (caseQuantLoop u hu r).sum = r := by
  have H : ∀ n : ℕ, ∀ r : ℚ, (⌈r / u⌉).toNat = n → 0 < r →
      (caseQuantLoop u hu r).sum = r := by
    intro n
    induction n using Nat.strong_induction_on with
    | _ n ih =>
      intro r hn hr
      rw [caseQuantLoop, dif_neg (not_le.mpr hr)]
      by_cases hge : u ≤ r
      · rw [dif_pos hge, List.sum_cons]
        by_cases h2 : 0 < r - u
        · have key := ceil_sub_self_div u hu r
          have hpos : 0 < ⌈r / u⌉ := Int.ceil_pos.mpr (div_pos hr hu)
          have hlt : (⌈(r - u) / u⌉).toNat < n := by omega
          rw [ih _ hlt _ rfl h2]
          ring
        · rw [caseQuantLoop_nonpos u hu _ (not_lt.mp h2)]
          have hru : r = u := le_antisymm (by linarith) hge
          simp [hru]
      · rw [dif_neg hge]
        simp
  exact H _ r rfl hr

/-- The split loop emits exactly the ceiling of remainder over case size many
quantities. -/
theorem caseQuantLoop_length (u : ℚ) (hu : 0 < u) (r : ℚ) (hr : 0 < r) :
    ((caseQuantLoop u hu r).length : ℤ) = ⌈r / u⌉ := by
  have H : ∀ n : ℕ, ∀ r : ℚ, (⌈r / u⌉).toNat = n → 0 < r →
      ((caseQuantLoop u hu r).length : ℤ) = ⌈r / u⌉ := by
    intro n
    induction n using Nat.strong_induction_on with
    | _ n ih =>
      intro r hn hr
      rw [caseQuantLoop, dif_neg (not_le.mpr hr)]
      have key := ceil_sub_self_div u hu r
      have hpos : 0 < ⌈r / u⌉ := Int.ceil_pos.mpr (div_pos hr hu)
      by_cases hge : u ≤ r
      · rw [dif_pos hge, List.length_cons]
        by_cases h2 : 0 < r - u
        · have hlt : (⌈(r - u) / u⌉).toNat < n := by omega
          have ihl := ih _ hlt _ rfl h2
          push_cast
          omega
        · rw [caseQuantLoop_nonpos u hu _ (not_lt.mp h2)]
          have hru : r = u := le_antisymm (by linarith) hge
          have hone : ⌈r / u⌉ = 1 := by
            rw [hru, div_self (ne_of_gt hu)]
            exact Int.ceil_one
          simp [hone]
      · rw [dif_neg hge]
        have hle : ⌈r / u⌉ ≤ 1 := by
          apply Int.ceil_le.mpr
          push_cast
          exact (div_le_one hu).mpr (le_of_lt (not_le.mp hge))
        simp
        omega
  exact H _ r rfl hr

/-- Every emitted quantity except possibly the last equals the case size. -/
theorem caseQuantLoop_dropLast (u : ℚ) (hu : 0 < u) (r : ℚ) :
    ∀ x ∈ (caseQuantLoop u hu r).dropLast, x = u := by
  have H : ∀ n : ℕ, ∀ r : ℚ, (⌈r / u⌉).toNat = n →
      ∀ x ∈ (caseQuantLoop u hu r).dropLast, x = u := by
    intro n
    induction n using Nat.strong_induction_on with
    | _ n ih =>
      intro r hn x hx
      by_cases hr : r ≤ 0
      · rw [caseQuantLoop_nonpos u hu _ hr] at hx
        simp at hx
      · have hr' : 0 < r := lt_of_not_le hr
        rw [caseQuantLoop, dif_neg hr] at hx
        by_cases hge : u ≤ r
        · rw [dif_pos hge] at hx
          by_cases h2 : 0 < r - u
          · obtain ⟨y, t, hyt⟩ :=
              List.exists_cons_of_ne_nil (caseQuantLoop_ne_nil u hu _ h2)
            rw [hyt] at hx
            have hdl : (u :: y :: t).dropLast = u :: (y :: t).dropLast := rfl
            rw [hdl] at hx
            rcases List.mem_cons.mp hx with h | h
            · exact h
            · have key := ceil_sub_self_div u hu r
              have hpos : 0 < ⌈r / u⌉ := Int.ceil_pos.mpr (div_pos hr' hu)
              have hlt : (⌈(r - u) / u⌉).toNat < n := by omega
              exact ih _ hlt _ rfl x (by rw [hyt]; exact h)
          · rw [caseQuantLoop_nonpos u hu _ (not_lt.mp h2)] at hx
            simp at hx
        · rw [dif_neg hge] at hx
          simp at hx
  exact fun x hx => H _ r rfl x hx

/-- C3: for positive quantity and case size, the individual case quantities
have length equal to `caseLabelsNeeded`, all entries except possibly the last
equal the case size, and sum exactly to the quantity; any nonpositive
argument yields the empty sequence. -/
theorem individual_case_quantities_spec (q u : ℚ) :
    (q ≤ 0 ∨ u ≤ 0 → calculate_individual_case_quantities q u = []) ∧
    (0 < q → 0 < u →
      ((calculate_individual_case_quantities q u).length : ℤ) =
        calculate_case_labels_needed q u ∧
      (∀ x ∈ (calculate_individual_case_quantities q u).dropLast, x = u) ∧
      (calculate_individual_case_quantities q u).sum = q) := by
  constructor
  · intro h
    rw [calculate_individual_case_quantities, dif_pos h]
  · intro hq hu
    have hni : ¬(q ≤ 0 ∨ u ≤ 0) := by
      push_neg
      exact ⟨hq, hu⟩
    simp only [calculate_individual_case_quantities, dif_neg hni]
    refine ⟨?_, caseQuantLoop_dropLast u _ q, caseQuantLoop_sum u _ q hq⟩
    rw [caseQuantLoop_length u _ q hq, calculate_case_labels_needed, if_neg hni]

/-- C3 witness: the stated properties at quantity 50 and case size 24. -/
theorem individual_case_quantities_witness :
    ((calculate_individual_case_quantities 50 24).length : ℤ) =
      calculate_case_labels_needed 50 24 ∧
    (∀ x ∈ (calculate_individual_case_quantities 50 24).dropLast, x = 24) ∧
    (calculate_individual_case_quantities 50 24).sum = 50 :=
  (individual_case_quantities_spec 50 24).2 (by norm_num) (by norm_num)


/-- The wrap capacity estimate evaluates to fifty-three characters. -/
theorem max_chars_eq : max_chars = 53 := by
  norm_num [max_chars, pyInt, text_width, width_dots, LABEL_WIDTH, DPI]
  decide

set_option maxRecDepth 4000 in
/-- C7 counterexample: a product text wrapping to three lines whose second
line has fifty-one characters, within the fifty-three character capacity; the
code nevertheless truncates the second line, because the code condition is
exceeding capacity minus three, not exceeding capacity. -/
theorem wrap_second_line_counterexample :
    cexW2.length ≤ max_chars ∧
    wrapLines max_chars [] "" (splitWords cexProduct) = [cexW1, cexW2, "cccc"] ∧
    product_lines_of max_chars cexProduct ≠ [cexW1, cexW2] ∧
    product_lines_of max_chars cexProduct =
      [cexW1, cexW2.take (max_chars - 3) ++ "..."] := by
  simp only [max_chars_eq]
  refine ⟨by decide, by decide, by decide, by decide⟩

/-- C7 amended: a single field longer than the capacity keeps its first
capacity-minus-three characters plus an ellipsis; in the two-line wrap, lines
after the second are discarded and the kept second line is truncated exactly
when its length exceeds capacity minus three (not capacity). -/
theorem truncate_wrap_spec (maxChars : ℕ) (s : String) (l1 l2 : String)
    (rest : List String) :
    (s.length > maxChars → truncate_field maxChars s = s.take (maxChars - 3) ++ "...") ∧
    (s.length > maxChars →
      wrapLines maxChars [] "" (splitWords s) = l1 :: l2 :: rest → rest ≠ [] →
      product_lines_of maxChars s =
        [l1, if l2.length > maxChars - 3 then l2.take (maxChars - 3) ++ "..." else l2]) := by
  constructor
  · intro h
    rw [truncate_field, if_pos h]
  · intro hs hw hrest
    simp only [product_lines_of]
    rw [if_pos hs, hw]
    have hlen : (l1 :: l2 :: rest).length > 2 := by
      simp only [List.length_cons]
      have := List.length_pos.mpr hrest
      omega
    rw [if_pos hlen]
    show (match [l1, l2] with
      | [a, b] =>
        if b.length > maxChars - 3 then [a, b.take (maxChars - 3) ++ "..."] else [a, b]
      | other => other) =
      [l1, if l2.length > maxChars - 3 then l2.take (maxChars - 3) ++ "..." else l2]
    by_cases hc : l2.length > maxChars - 3
    · simp only [if_pos hc]
    · simp only [if_neg hc]

/-- C7 witness: capacity five with a three-word input whose wrap yields three
lines; the second line has four characters, above capacity minus three, and is
truncated. -/
theorem truncate_wrap_witness :
    truncate_field 5 "aaaa bbbb cccc" = ("aaaa bbbb cccc").take 2 ++ "..." ∧
    product_lines_of 5 "aaaa bbbb cccc" =
      ["aaaa",
        if ("bbbb" : String).length > 5 - 3 then ("bbbb" : String).take 2 ++ "..."
        else "bbbb"] := by
  have h := truncate_wrap_spec 5 "aaaa bbbb cccc" "aaaa" "bbbb" ["cccc"]
  exact ⟨h.1 (by decide), h.2 (by decide) (by decide) (by decide)⟩


/-- C1 counterexample: a record with quantity zero and override five gets
five documents in either mode, so the quantity precondition does not hold
"regardless of any labelOverride value". -/
theorem override_bypasses_quantity_counterexample :
    rowQ0Ov5.quantityNum.toRat ≤ 0 ∧
    rowQ0Ov5.labelOverride = some 5 ∧
    (generate_all_labels [rowQ0Ov5] LabelMode.package 1).length = 5 ∧
    (generate_all_labels [rowQ0Ov5] LabelMode.case 1).length = 5 := by
  refine ⟨by norm_num [rowQ0Ov5, PyNum.toRat], rfl, ?_, ?_⟩ <;>
    simp [generate_all_labels, List.insertionSort, List.orderedInsert,
      labels_for_record, rowQ0Ov5, override_labels]

/-- C1 amended: a record whose quantity is nonpositive contributes zero
documents under either mode when no positive override is set (override
absent, zero, or negative); a positive override n bypasses the quantity
precondition and emits exactly n documents. -/
theorem quantity_zero_emission (r : Row) (label_mode : LabelMode) (nowIsoWeek : ℤ)
    (hq : r.quantityNum.toRat ≤ 0) :
    ((∀ n, r.labelOverride = some n → n ≤ 0) →
      labels_for_record r label_mode nowIsoWeek = []) ∧
    (∀ n, r.labelOverride = some n → 0 < n →
      (labels_for_record r label_mode nowIsoWeek).length = n.toNat) := by
  have hq' : (safe_numeric (PyVal.num r.quantityNum) (PyNum.dec 0)).toRat ≤ 0 := by
    rw [safe_numeric_num_toRat]
    exact hq
  constructor
  · intro hno
    cases ho : r.labelOverride with
    | none =>
      simp only [labels_for_record, ho, generate_labels_for_row]
      rw [if_pos hq']
    | some o =>
      have hle := hno o ho
      simp only [labels_for_record, ho]
      rw [if_neg (by omega : ¬ 0 < o)]
      by_cases h0 : o = 0
      · rw [if_pos h0]
      · rw [if_neg h0]
        simp only [generate_labels_for_row]
        rw [if_pos hq']
  · intro n ho hn
    simp only [labels_for_record, ho]
    rw [if_pos hn]
    simp [override_labels]

/-- C1 witness: a record with quantity zero and no override contributes
nothing in either mode. -/
theorem quantity_zero_emission_witness :
    rowQ0None.quantityNum.toRat ≤ 0 ∧
    labels_for_record rowQ0None LabelMode.package 1 = [] ∧
    labels_for_record rowQ0None LabelMode.case 1 = [] := by
  have h1 := quantity_zero_emission rowQ0None LabelMode.package 1
    (by norm_num [rowQ0None, PyNum.toRat])
  have h2 := quantity_zero_emission rowQ0None LabelMode.case 1
    (by norm_num [rowQ0None, PyNum.toRat])
  exact ⟨by norm_num [rowQ0None, PyNum.toRat], h1.1 (by simp [rowQ0None]),
    h2.1 (by simp [rowQ0None])⟩

/-- C2 counterexample: with override absent and package mode the claim
promises exactly one document for every record, but a record with quantity
zero gets none. -/
theorem package_mode_zero_quantity_counterexample :
    rowQ0None.labelOverride = Option.none ∧
    (labels_for_record rowQ0None LabelMode.package 1).length ≠ 1 := by
  refine ⟨rfl, ?_⟩
  have hq : (safe_numeric (PyVal.num rowQ0None.quantityNum) (PyNum.dec 0)).toRat ≤ 0 := by
    rw [safe_numeric_num_toRat]
    norm_num [rowQ0None, PyNum.toRat]
  simp only [labels_for_record, generate_labels_for_row]
  rw [if_pos hq]
  decide

/-- C2 amended: a positive override n emits exactly n documents regardless of
mode; an override of zero emits none; with the override absent, package mode
emits one document exactly when the coerced quantity is positive (zero
documents otherwise), and case mode emits exactly `caseLabelsNeeded` copies of
the document carrying the full case size as its quantity. -/
theorem override_mode_emission (r : Row) (label_mode : LabelMode) (nowIsoWeek : ℤ) :
    (∀ n, r.labelOverride = some n → 0 < n →
      (labels_for_record r label_mode nowIsoWeek).length = n.toNat) ∧
    (r.labelOverride = some 0 → labels_for_record r label_mode nowIsoWeek = []) ∧
    (r.labelOverride = Option.none →
      labels_for_record r LabelMode.package nowIsoWeek =
        (if 0 < (safe_numeric (PyVal.num r.quantityNum) (PyNum.dec 0)).toRat then
          [generate_label_zpl r.productName r.brand r.productClean r.batchNo
            (if 0 < (safe_numeric (PyVal.num r.unitsPerCaseNum) (PyNum.dec 0)).toRat then
              some (safe_numeric (PyVal.num r.unitsPerCaseNum) (PyNum.dec 0))
            else Option.none)
            r.packageLabel r.category r.createdAtFull nowIsoWeek]
        else []) ∧
      labels_for_record r LabelMode.case nowIsoWeek =
        List.replicate
          (calculate_case_labels_needed
            (safe_numeric (PyVal.num r.quantityNum) (PyNum.dec 0)).toRat
            (safe_numeric (PyVal.num r.unitsPerCaseNum) (PyNum.dec 0)).toRat).toNat
          (generate_label_zpl r.productName r.brand r.productClean r.batchNo
            (some (safe_numeric (PyVal.num r.unitsPerCaseNum) (PyNum.dec 0)))
            r.packageLabel r.category r.createdAtFull nowIsoWeek)) := by
  refine ⟨?_, ?_, ?_⟩
  · intro n ho hn
    simp only [labels_for_record, ho]
    rw [if_pos hn]
    simp [override_labels]
  · intro ho
    simp only [labels_for_record, ho]
    rw [if_neg (by omega : ¬ (0 : ℤ) < 0)]
    simp
  · intro ho
    constructor
    · simp only [labels_for_record, ho, generate_labels_for_row]
      by_cases hq : (safe_numeric (PyVal.num r.quantityNum) (PyNum.dec 0)).toRat ≤ 0
      · rw [if_pos hq, if_neg (not_lt.mpr hq)]
      · rw [if_neg hq, if_pos (lt_of_not_le hq)]
    · simp only [labels_for_record, ho, generate_labels_for_row]
      by_cases hq : (safe_numeric (PyVal.num r.quantityNum) (PyNum.dec 0)).toRat ≤ 0
      · rw [if_pos hq, calculate_case_labels_needed, if_pos (Or.inl hq)]
        simp
      · rw [if_neg hq]
        by_cases hu : 0 < (safe_numeric (PyVal.num r.unitsPerCaseNum) (PyNum.dec 0)).toRat
        · rw [if_pos hu]
        · rw [if_neg hu, calculate_case_labels_needed, if_pos (Or.inr (not_lt.mp hu))]
          simp

/-- C2 witness: a record with override five emits five case-mode documents. -/
theorem override_mode_emission_witness :
    rowQ10U25Ov5.labelOverride = some 5 ∧
    (labels_for_record rowQ10U25Ov5 LabelMode.case 1).length = (5 : ℤ).toNat :=
  ⟨rfl, (override_mode_emission rowQ10U25Ov5 LabelMode.case 1).1 5 rfl (by norm_num)⟩


/-- Joining a split list inserts one separator at the split point. -/
theorem join_nl_append_of_ne_nil : ∀ (xs : List String), xs ≠ [] →
    ∀ (ys : List String), ys ≠ [] →
    join_nl (xs ++ ys) = join_nl xs ++ "\n" ++ join_nl ys := by
  intro xs
  induction xs with
  | nil => intro h; exact absurd rfl h
  | cons x t ih =>
    intro _ ys hy
    cases t with
    | nil =>
      cases ys with
      | nil => exact absurd rfl hy
      | cons y t2 => rfl
    | cons y t2 =>
      have hrec := ih (by simp) ys hy
      calc join_nl ((x :: y :: t2) ++ ys)
          = x ++ "\n" ++ join_nl ((y :: t2) ++ ys) := rfl
        _ = x ++ "\n" ++ (join_nl (y :: t2) ++ "\n" ++ join_nl ys) := by rw [hrec]
        _ = join_nl (x :: y :: t2) ++ "\n" ++ join_nl ys := by
            show x ++ "\n" ++ (join_nl (y :: t2) ++ "\n" ++ join_nl ys) =
              x ++ "\n" ++ join_nl (y :: t2) ++ "\n" ++ join_nl ys
            simp [String.append_assoc]

/-- A joined command list ending in the font command, the quantity command,
and the end marker exposes the quantity text as a suffix. -/
theorem exists_split_qty (xs : List String) (h : xs ≠ []) (cf fo qd : String) :
    ∃ p, join_nl (xs ++ [cf, fo ++ "^FD" ++ qd ++ "^FS", "^XZ"]) =
      p ++ ("^FD" ++ qd ++ "^FS" ++ "\n" ++ "^XZ") := by
  refine ⟨join_nl xs ++ "\n" ++ cf ++ "\n" ++ fo, ?_⟩
  rw [join_nl_append_of_ne_nil xs h _ (by simp)]
  show join_nl xs ++ "\n" ++ (cf ++ "\n" ++ (fo ++ "^FD" ++ qd ++ "^FS" ++ "\n" ++ "^XZ")) =
    join_nl xs ++ "\n" ++ cf ++ "\n" ++ fo ++ ("^FD" ++ qd ++ "^FS" ++ "\n" ++ "^XZ")
  simp [String.append_assoc]

/-- Every composed document ends in the quantity line and the end marker. -/
theorem generate_label_zpl_tail (product_name brand product_clean batch_no : String)
    (qty : Option PyNum) (package_label category : String) (created_date : DateVal)
    (nowIsoWeek : ℤ) :
    ∃ p, generate_label_zpl product_name brand product_clean batch_no qty
        package_label category created_date nowIsoWeek =
      p ++ ("^FD" ++ case_qty_display qty ++ "^FS" ++ "\n" ++ "^XZ") := by
  simp only [generate_label_zpl]
  exact exists_split_qty _ (by simp) _ _ _

/-- Digit characters below ten satisfy the digit predicate. -/
theorem digitChar_isDigit (n : ℕ) (h : n < 10) : (Nat.digitChar n).isDigit = true := by
  interval_cases n <;> decide

/-- The digit accumulator of the base-ten printer only produces digits. -/
theorem toDigitsCore_isDigit : ∀ (fuel n : ℕ) (ds : List Char),
    (∀ c ∈ ds, c.isDigit = true) →
    ∀ c ∈ Nat.toDigitsCore 10 fuel n ds, c.isDigit = true := by
  intro fuel
  induction fuel with
  | zero => intro n ds hds c hc; exact hds c hc
  | succ f ih =>
    intro n ds hds c hc
    simp only [Nat.toDigitsCore] at hc
    have hd : (Nat.digitChar (n % 10)).isDigit = true :=
      digitChar_isDigit _ (Nat.mod_lt _ (by norm_num))
    by_cases h0 : n / 10 = 0
    · rw [if_pos h0] at hc
      rcases List.mem_cons.mp hc with h | h
      · rw [h]; exact hd
      · exact hds c h
    · rw [if_neg h0] at hc
      refine ih _ _ ?_ c hc
      intro c2 hc2
      rcases List.mem_cons.mp hc2 with h | h
      · rw [h]; exact hd
      · exact hds c2 h

/-- Rendering a nonnegative integer yields only digit characters. -/
theorem itos_nonneg_isDigit (n : ℤ) (h : 0 ≤ n) :
    ∀ c ∈ (itos n).data, c.isDigit = true := by
  cases n with
  | ofNat m =>
    intro c hc
    have he : (itos (Int.ofNat m)).data = Nat.toDigitsCore 10 (m + 1) m [] := rfl
    rw [he] at hc
    exact toDigitsCore_isDigit _ _ _ (by intro c2 hc2; simp at hc2) c hc
  | negSucc m => exact absurd h (by exact Int.not_le.mpr (Int.negSucc_lt_zero m))

/-- The integral quantity text contains no decimal point. -/
theorem no_dot_case_qty_int (n : ℤ) (h : 0 ≤ n) :
    ∀ c ∈ ("Case Qty: " ++ itos n).data, c ≠ '.' := by
  intro c hc he
  rw [String.data_append] at hc
  rcases List.mem_append.mp hc with h1 | h1
  · rw [he] at h1
    revert h1
    decide
  · have hd := itos_nonneg_isDigit n h c h1
    rw [he] at hd
    exact absurd hd (by decide)

/-- Every document a row emits through the mode dispatch is the composed
label with the case-size-or-absent quantity. -/
theorem mem_generate_labels_for_row (r : Row) (label_mode : LabelMode)
    (nowIsoWeek : ℤ) (d : String)
    (hd : d ∈ generate_labels_for_row r label_mode nowIsoWeek) :
    d = generate_label_zpl r.productName r.brand r.productClean r.batchNo
      (if 0 < (safe_numeric (PyVal.num r.unitsPerCaseNum) (PyNum.dec 0)).toRat then
        some (safe_numeric (PyVal.num r.unitsPerCaseNum) (PyNum.dec 0))
      else Option.none)
      r.packageLabel r.category r.createdAtFull nowIsoWeek := by
  cases label_mode with
  | package =>
    simp only [generate_labels_for_row] at hd
    by_cases hq : (safe_numeric (PyVal.num r.quantityNum) (PyNum.dec 0)).toRat ≤ 0
    · rw [if_pos hq] at hd
      simp at hd
    · rw [if_neg hq] at hd
      simpa using hd
  | case =>
    simp only [generate_labels_for_row] at hd
    by_cases hq : (safe_numeric (PyVal.num r.quantityNum) (PyNum.dec 0)).toRat ≤ 0
    · rw [if_pos hq] at hd
      simp at hd
    · rw [if_neg hq] at hd
      by_cases hu : 0 < (safe_numeric (PyVal.num r.unitsPerCaseNum) (PyNum.dec 0)).toRat
      · rw [if_pos hu] at hd
        rw [List.eq_of_mem_replicate hd, if_pos hu]
      · rw [if_neg hu] at hd
        simp at hd

/-- Every document a record contributes to the batch is the composed label
with the case-size-or-absent quantity. -/
theorem mem_labels_for_record (r : Row) (label_mode : LabelMode) (nowIsoWeek : ℤ)
    (d : String) (hd : d ∈ labels_for_record r label_mode nowIsoWeek) :
    d = generate_label_zpl r.productName r.brand r.productClean r.batchNo
      (if 0 < (safe_numeric (PyVal.num r.unitsPerCaseNum) (PyNum.dec 0)).toRat then
        some (safe_numeric (PyVal.num r.unitsPerCaseNum) (PyNum.dec 0))
      else Option.none)
      r.packageLabel r.category r.createdAtFull nowIsoWeek := by
  cases ho : r.labelOverride with
  | none =>
    simp only [labels_for_record, ho] at hd
    exact mem_generate_labels_for_row r label_mode nowIsoWeek d hd
  | some o =>
    simp only [labels_for_record, ho] at hd
    by_cases h1 : 0 < o
    · rw [if_pos h1] at hd
      simp only [override_labels] at hd
      exact List.eq_of_mem_replicate hd
    · rw [if_neg h1] at hd
      by_cases h0 : o = 0
      · rw [if_pos h0] at hd
        simp at hd
      · rw [if_neg h0] at hd
        exact mem_generate_labels_for_row r label_mode nowIsoWeek d hd

/-- C9: in every document a record contributes, the quantity line reads
"Case Qty: N/A" when the coerced units-per-case is nonpositive (absent or
unresolvable input), and for an integral positive units-per-case it reads
"Case Qty: " followed by the plain integer, with no decimal point. -/
theorem case_qty_line_spec (r : Row) (label_mode : LabelMode) (nowIsoWeek : ℤ)
    (d : String) (hd : d ∈ labels_for_record r label_mode nowIsoWeek) :
    ((safe_numeric (PyVal.num r.unitsPerCaseNum) (PyNum.dec 0)).toRat ≤ 0 →
      ∃ p, d = p ++ ("^FD" ++ "Case Qty: N/A" ++ "^FS" ++ "\n" ++ "^XZ")) ∧
    (0 < (safe_numeric (PyVal.num r.unitsPerCaseNum) (PyNum.dec 0)).toRat →
      (pyInt ((safe_numeric (PyVal.num r.unitsPerCaseNum) (PyNum.dec 0)).toRat) : ℚ) =
        (safe_numeric (PyVal.num r.unitsPerCaseNum) (PyNum.dec 0)).toRat →
      (∃ p, d = p ++ ("^FD" ++ ("Case Qty: " ++
          itos (pyInt ((safe_numeric (PyVal.num r.unitsPerCaseNum) (PyNum.dec 0)).toRat))) ++
          "^FS" ++ "\n" ++ "^XZ")) ∧
      ∀ c ∈ ("Case Qty: " ++
          itos (pyInt ((safe_numeric (PyVal.num r.unitsPerCaseNum) (PyNum.dec 0)).toRat))).data,
        c ≠ '.') := by
  have hdoc := mem_labels_for_record r label_mode nowIsoWeek d hd
  constructor
  · intro hle
    rw [if_neg (not_lt.mpr hle)] at hdoc
    obtain ⟨p, hp⟩ := generate_label_zpl_tail r.productName r.brand r.productClean
      r.batchNo Option.none r.packageLabel r.category r.createdAtFull nowIsoWeek
    exact ⟨p, by rw [hdoc, hp]; rfl⟩
  · intro hpos hint
    rw [if_pos hpos] at hdoc
    obtain ⟨p, hp⟩ := generate_label_zpl_tail r.productName r.brand r.productClean
      r.batchNo (some (safe_numeric (PyVal.num r.unitsPerCaseNum) (PyNum.dec 0)))
      r.packageLabel r.category r.createdAtFull nowIsoWeek
    have hqd : case_qty_display
        (some (safe_numeric (PyVal.num r.unitsPerCaseNum) (PyNum.dec 0))) =
        "Case Qty: " ++
          itos (pyInt ((safe_numeric (PyVal.num r.unitsPerCaseNum) (PyNum.dec 0)).toRat)) := by
      simp only [case_qty_display, safe_numeric_num_toRat]
      rw [safe_numeric_num_toRat] at hint
      rw [if_pos hint]
    have hn : 0 ≤ pyInt ((safe_numeric (PyVal.num r.unitsPerCaseNum) (PyNum.dec 0)).toRat) := by
      rw [pyInt, if_pos (le_of_lt hpos)]
      exact Int.floor_nonneg.mpr (le_of_lt hpos)
    exact ⟨⟨p, by rw [hdoc, hp, hqd]⟩, no_dot_case_qty_int _ hn⟩


/-- C9 witness: the package-mode document of a record with integral case size
twenty-five carries the plain-integer quantity line. -/
theorem case_qty_line_witness :
    0 < (safe_numeric (PyVal.num rowQ10U25.unitsPerCaseNum) (PyNum.dec 0)).toRat ∧
    (∃ p, docQ10U25 = p ++ ("^FD" ++ ("Case Qty: " ++
        itos (pyInt ((safe_numeric (PyVal.num rowQ10U25.unitsPerCaseNum) (PyNum.dec 0)).toRat))) ++
        "^FS" ++ "\n" ++ "^XZ")) ∧
    ∀ c ∈ ("Case Qty: " ++
        itos (pyInt ((safe_numeric (PyVal.num rowQ10U25.unitsPerCaseNum) (PyNum.dec 0)).toRat))).data,
      c ≠ '.' := by
  have hq10 : ¬ ((safe_numeric (PyVal.num (PyNum.int 10)) (PyNum.dec 0)).toRat ≤ 0) := by
    rw [safe_numeric_num_toRat]
    norm_num [PyNum.toRat]
  have hu25 : 0 < (safe_numeric (PyVal.num (PyNum.int 25)) (PyNum.dec 0)).toRat := by
    rw [safe_numeric_num_toRat]
    norm_num [PyNum.toRat]
  have hint : (pyInt ((safe_numeric (PyVal.num (PyNum.int 25)) (PyNum.dec 0)).toRat) : ℚ) =
      (safe_numeric (PyVal.num (PyNum.int 25)) (PyNum.dec 0)).toRat := by
    rw [safe_numeric_num_toRat]
    have h25 : (PyNum.int 25).toRat = ((25 : ℤ) : ℚ) := rfl
    rw [h25, pyInt_intCast]
  have hmem : docQ10U25 ∈ labels_for_record rowQ10U25 LabelMode.package 1 := by
    simp only [labels_for_record, generate_labels_for_row, rowQ10U25]
    rw [if_neg hq10, if_pos hu25]
    simp [docQ10U25, rowQ10U25]
  exact ⟨hu25, (case_qty_line_spec rowQ10U25 LabelMode.package 1 docQ10U25 hmem).2 hu25 hint⟩


/-- Two sorted lists that are permutations of each other and have pairwise
distinct package labels are equal. -/
theorem eq_of_perm_sorted_nodup_keys :
    ∀ (l₁ l₂ : List Row), l₁.Perm l₂ → l₁.Sorted rowKeyLE → l₂.Sorted rowKeyLE →
      (l₁.map Row.packageLabel).Nodup → l₁ = l₂
  | [], l₂, hp, _, _, _ => hp.nil_eq
  | a :: t, l₂, hp, hs₁, hs₂, hnd => by
    cases l₂ with
    | nil =>
      have := hp.length_eq
      simp at this
    | cons b t₂ =>
      have hbmem : b ∈ a :: t := hp.mem_iff.mpr (List.mem_cons_self b t₂)
      have hab : a = b := by
        rcases List.mem_cons.mp hbmem with h | h
        · exact h.symm
        · have h1 : rowKeyLE a b := (List.sorted_cons.mp hs₁).1 b h
          have hamem : a ∈ b :: t₂ := hp.mem_iff.mp (List.mem_cons_self a t)
          have h2 : rowKeyLE b a := by
            rcases List.mem_cons.mp hamem with h2 | h2
            · rw [h2]
              exact le_refl _
            · exact (List.sorted_cons.mp hs₂).1 a h2
          have hk : a.packageLabel = b.packageLabel := le_antisymm h1 h2
          exact (List.inj_on_of_nodup_map hnd (List.mem_cons_self a t) hbmem hk)
      subst hab
      have ht : t.Perm t₂ := hp.cons_inv
      have hrec := eq_of_perm_sorted_nodup_keys t t₂ ht (List.sorted_cons.mp hs₁).2
        (List.sorted_cons.mp hs₂).2 (by
          rw [List.map_cons] at hnd
          exact (List.nodup_cons.mp hnd).2)
      rw [hrec]

/-- A constant-key block is sorted. -/
theorem sorted_const_map (k : String) (xs : List String) :
    ((xs.map fun _ => k) : List String).Sorted (· ≤ ·) := by
  induction xs with
  | nil => simp
  | cons x t ih =>
    rw [List.map_cons, List.sorted_cons]
    refine ⟨?_, ih⟩
    intro b hb
    rcases List.mem_map.mp hb with ⟨y, _, rfl⟩
    exact le_refl k

/-- Emitting each sorted record as a block of documents tagged with its key
keeps the key sequence sorted. -/
theorem sorted_flatMap_keys (f : Row → List String) :
    ∀ (l : List Row), (l.map Row.packageLabel).Sorted (· ≤ ·) →
      (l.flatMap fun r => (f r).map fun _ => r.packageLabel).Sorted (· ≤ ·) := by
  intro l
  induction l with
  | nil => simp
  | cons r t ih =>
    intro hs
    rw [List.map_cons, List.sorted_cons] at hs
    rw [List.flatMap_cons]
    rw [List.Sorted, List.pairwise_append]
    refine ⟨sorted_const_map _ _, ih hs.2, ?_⟩
    intro x hx y hy
    rcases List.mem_map.mp hx with ⟨x0, _, rfl⟩
    rcases List.mem_flatMap.mp hy with ⟨r2, hr2, hy2⟩
    rcases List.mem_map.mp hy2 with ⟨y0, _, rfl⟩
    exact hs.1 r2.packageLabel (List.mem_map.mpr ⟨r2, hr2, rfl⟩)

/-- C5: on records with pairwise distinct package labels, batch generation is
invariant under permutation of the input rows: the document list and the
joined batch are byte-identical, and documents are emitted in ascending
string order of package label. -/
theorem batch_order_deterministic (l₁ l₂ : List Row) (label_mode : LabelMode)
    (nowIsoWeek : ℤ) (hp : l₁.Perm l₂)
    (hnd : (l₁.map Row.packageLabel).Nodup) :
    generate_all_labels l₁ label_mode nowIsoWeek =
      generate_all_labels l₂ label_mode nowIsoWeek ∧
    batch_zpl l₁ label_mode nowIsoWeek = batch_zpl l₂ label_mode nowIsoWeek ∧
    (doc_keys l₁ label_mode nowIsoWeek).Sorted (· ≤ ·) := by
  have hperm : (List.insertionSort rowKeyLE l₁).Perm (List.insertionSort rowKeyLE l₂) :=
    (List.perm_insertionSort rowKeyLE l₁).trans
      (hp.trans (List.perm_insertionSort rowKeyLE l₂).symm)
  have hs₁ : (List.insertionSort rowKeyLE l₁).Sorted rowKeyLE :=
    List.sorted_insertionSort rowKeyLE l₁
  have hs₂ : (List.insertionSort rowKeyLE l₂).Sorted rowKeyLE :=
    List.sorted_insertionSort rowKeyLE l₂
  have hnd₁ : ((List.insertionSort rowKeyLE l₁).map Row.packageLabel).Nodup := by
    refine (List.Perm.nodup_iff ?_).mpr hnd
    exact (List.perm_insertionSort rowKeyLE l₁).map Row.packageLabel
  have hsorted_eq : List.insertionSort rowKeyLE l₁ = List.insertionSort rowKeyLE l₂ :=
    eq_of_perm_sorted_nodup_keys _ _ hperm hs₁ hs₂ hnd₁
  have hkeys : ((List.insertionSort rowKeyLE l₁).map Row.packageLabel).Sorted (· ≤ ·) := by
    rw [List.Sorted]
    exact List.Pairwise.map Row.packageLabel (fun a b h => h) hs₁
  refine ⟨?_, ?_, ?_⟩
  · rw [generate_all_labels, generate_all_labels, hsorted_eq]
  · rw [batch_zpl, batch_zpl, generate_all_labels, generate_all_labels, hsorted_eq]
  · rw [doc_keys]
    exact sorted_flatMap_keys _ _ hkeys

/-- C5 witness: the two-record batch from the end-to-end scenario produces
identical output under both input orders, with sorted document keys. -/
theorem batch_order_deterministic_witness :
    ([rowB002, rowA001].Perm [rowA001, rowB002]) ∧
    (([rowB002, rowA001].map Row.packageLabel).Nodup) ∧
    generate_all_labels [rowB002, rowA001] LabelMode.case 1 =
      generate_all_labels [rowA001, rowB002] LabelMode.case 1 ∧
    batch_zpl [rowB002, rowA001] LabelMode.case 1 =
      batch_zpl [rowA001, rowB002] LabelMode.case 1 ∧
    (doc_keys [rowB002, rowA001] LabelMode.case 1).Sorted (· ≤ ·) := by
  have hp : ([rowB002, rowA001].Perm [rowA001, rowB002]) := List.Perm.swap _ _ _
  have hnd : (([rowB002, rowA001].map Row.packageLabel).Nodup) := by
    simp [rowB002, rowA001]
  exact ⟨hp, hnd, batch_order_deterministic [rowB002, rowA001] [rowA001, rowB002]
    LabelMode.case 1 hp hnd⟩

end DCLabel
